import Mathlib

/-!
Verification development for the camera-layer library.

This file gives a shallow embedding, in Lean, of the parts of the library
that the verified properties are about:

* the detection geometry utilities of `src/utils/layerContext.ts`
  (`isPointInBoundingBox`, `findDetectionAtPoint`, `getDetectionArea`,
  `doDetectionsOverlap`, `getOverlapArea`, `getIoU`);
* the layer registry of `src/hooks/useLayer.ts`
  (`addLayer`, `removeLayer`, `updateLayer`, `sortedLayers`);
* the per-tick layer round of the `Cam` component's `processFrame`
  (ordering, visibility skip, callback invocation, error propagation);
* the frame-rate scheduler of `src/hooks/useFrameProcessor.ts`
  (`processFrame` skip/fire/drift-correction logic);
* the pointer dispatch of the `Cam` component's `handleCanvasClick`.

Numbers are embedded as rationals (exact arithmetic standing in for the
source's number type).  Callbacks are embedded by their observable shape: a
slot is either absent or present, and a present `onFrame`/`render` slot
additionally records whether invoking it throws; invocations are recorded
as events in a trace.
-/

/-- Axis-aligned bounding box, `BoundingBox` in `src/types/index.ts`:
top-left `x`, `y`, plus `width` and `height` in pixels. -/
structure BoundingBox where
  x : ℚ
  y : ℚ
  width : ℚ
  height : ℚ
deriving DecidableEq, Repr

/-- A detection result, `Detection` in `src/types/index.ts` (the fields the
verified properties use). -/
structure Detection where
  id : String
  label : String
  confidence : ℚ
  bbox : BoundingBox
  timestamp : ℚ
deriving DecidableEq, Repr

/-- `isPointInBoundingBox` from `src/utils/layerContext.ts`:
`x >= bbox.x && x <= bbox.x + bbox.width && y >= bbox.y && y <= bbox.y + bbox.height`. -/
def isPointInBoundingBox (x y : ℚ) (bbox : BoundingBox) : Bool :=
  decide (bbox.x ≤ x) && decide (x ≤ bbox.x + bbox.width) &&
    decide (bbox.y ≤ y) && decide (y ≤ bbox.y + bbox.height)

/-- `findDetectionAtPoint` from `src/utils/layerContext.ts`: the source loops
`i` from `detections.length - 1` down to `0` and returns the first detection
whose box contains the point, i.e. the first hit of the reversed array. -/
def findDetectionAtPoint (x y : ℚ) (detections : List Detection) : Option Detection :=
  detections.reverse.find? (fun d => isPointInBoundingBox x y d.bbox)

/-- `getDetectionArea` from `src/utils/layerContext.ts`. -/
def getDetectionArea (bbox : BoundingBox) : ℚ :=
  bbox.width * bbox.height

/-- `doDetectionsOverlap` from `src/utils/layerContext.ts`:
`!(b1.x + b1.width < b2.x || b2.x + b2.width < b1.x || b1.y + b1.height < b2.y || b2.y + b2.height < b1.y)`. -/
def doDetectionsOverlap (bbox1 bbox2 : BoundingBox) : Bool :=
  !(decide (bbox1.x + bbox1.width < bbox2.x) ||
    decide (bbox2.x + bbox2.width < bbox1.x) ||
    decide (bbox1.y + bbox1.height < bbox2.y) ||
    decide (bbox2.y + bbox2.height < bbox1.y))

/-- `getOverlapArea` from `src/utils/layerContext.ts`. -/
def getOverlapArea (bbox1 bbox2 : BoundingBox) : ℚ :=
  if !(doDetectionsOverlap bbox1 bbox2) then 0
  else
    let xOverlap := min (bbox1.x + bbox1.width) (bbox2.x + bbox2.width) - max bbox1.x bbox2.x
    let yOverlap := min (bbox1.y + bbox1.height) (bbox2.y + bbox2.height) - max bbox1.y bbox2.y
    xOverlap * yOverlap

/-- `getIoU` from `src/utils/layerContext.ts`. -/
def getIoU (bbox1 bbox2 : BoundingBox) : ℚ :=
  let overlapArea := getOverlapArea bbox1 bbox2
  if overlapArea = 0 then 0
  else
    let area1 := getDetectionArea bbox1
    let area2 := getDetectionArea bbox2
    let unionArea := area1 + area2 - overlapArea
    overlapArea / unionArea

/-- A registered layer, `Layer` in `src/types/index.ts`, with each optional
callback slot embedded by its observable shape.  For the `onFrame` and
`render` slots, `none` means the slot is absent and `some b` means the slot
is present, `b` recording whether invoking the callback throws.  The
remaining callback slots are embedded by presence alone. -/
structure Layer where
  id : String
  visible : Option Bool
  zIndex : Option Int
  onFrame : Option Bool
  render : Option Bool
  onMount : Bool
  onUnmount : Bool
  interactive : Option Bool
  onClick : Bool
  onHover : Bool
deriving DecidableEq, Repr

/-- The order key used by the sort comparator `(a.zIndex || 0) - (b.zIndex || 0)`:
a missing `zIndex` is treated as `0` (and an explicit `0`, also falsy in the
source language, compares the same way). -/
def sortKey (l : Layer) : Int :=
  l.zIndex.getD 0

/-- The comparator's ordering relation on layers. -/
def keyLE (a b : Layer) : Prop :=
  sortKey a ≤ sortKey b

instance : DecidableRel keyLE :=
  fun a b => inferInstanceAs (Decidable (sortKey a ≤ sortKey b))

instance : IsTotal Layer keyLE :=
  ⟨fun a b => Int.le_total (sortKey a) (sortKey b)⟩

instance : IsTrans Layer keyLE :=
  ⟨fun _ _ _ => Int.le_trans⟩

/-- `sortedLayers` from `src/hooks/useLayer.ts`:
`[...layers].sort((a, b) => (a.zIndex || 0) - (b.zIndex || 0))`.
`Array.prototype.sort` is specified to be stable, so the copy-and-sort is
embedded as a stable sort (insertion sort) by the order key. -/
def sortedLayers (layers : List Layer) : List Layer :=
  layers.insertionSort keyLE

/-- A reported (non-fatal) condition; `addLayer` reports a duplicate id via
`console.warn`. -/
inductive Report where
  | duplicateLayerId (id : String)
deriving DecidableEq, Repr

/-- `addLayer` from `src/hooks/useLayer.ts`: if a layer with the same id
already exists the list is returned unchanged and the conflict is reported;
otherwise the new layer is appended. -/
def addLayer (layer : Layer) (prevLayers : List Layer) : List Layer × List Report :=
  if prevLayers.any (fun l => l.id == layer.id) then
    (prevLayers, [Report.duplicateLayerId layer.id])
  else
    (prevLayers ++ [layer], [])

/-- `removeLayer` from `src/hooks/useLayer.ts`:
`prevLayers.filter(l => l.id !== layerId)`; the body contains no reporting
call, so the report component is always empty. -/
def removeLayer (layerId : String) (prevLayers : List Layer) : List Layer × List Report :=
  (prevLayers.filter (fun l => l.id != layerId), [])

/-- The update record passed to `updateLayer` (a subset of `Layer` fields;
each field is present or absent).  An `id` field, if supplied, is overridden
by the source's `id: layer.id`. -/
structure LayerUpdate where
  id : Option String
  visible : Option (Option Bool)
  zIndex : Option (Option Int)
  interactive : Option (Option Bool)
deriving DecidableEq, Repr

/-- The merge `{ ...layer, ...updates, id: layer.id }` performed by
`updateLayer`: present fields of the update overwrite the layer's, and the
id is preserved regardless of the update's `id` field. -/
def applyUpdate (layer : Layer) (u : LayerUpdate) : Layer :=
  { layer with
      visible := u.visible.getD layer.visible
      zIndex := u.zIndex.getD layer.zIndex
      interactive := u.interactive.getD layer.interactive
      id := layer.id }

/-- `updateLayer` from `src/hooks/useLayer.ts`: maps over the list, merging
the updates into the layer whose id matches. -/
def updateLayer (layerId : String) (updates : LayerUpdate) (prevLayers : List Layer) : List Layer :=
  prevLayers.map (fun layer => if layer.id = layerId then applyUpdate layer updates else layer)

/-- A registry mutation: one call to `addLayer`, `removeLayer` or `updateLayer`. -/
inductive RegistryOp where
  | add (layer : Layer)
  | remove (layerId : String)
  | update (layerId : String) (updates : LayerUpdate)

/-- Apply one registry operation to the layer list. -/
def applyOp (layers : List Layer) : RegistryOp → List Layer
  | .add layer => (addLayer layer layers).1
  | .remove layerId => (removeLayer layerId layers).1
  | .update layerId updates => updateLayer layerId updates layers

/-- Apply a sequence of registry operations, first to last. -/
def applyOps (ops : List RegistryOp) (layers : List Layer) : List Layer :=
  ops.foldl applyOp layers

/-- One observable callback invocation during a tick's layer round. -/
inductive TickEvent where
  | onFrame (layerId : String)
  | draw (layerId : String)
deriving DecidableEq, Repr

/-- The layer a tick event belongs to. -/
def TickEvent.owner : TickEvent → String
  | .onFrame i => i
  | .draw i => i

/-- The per-layer body of the `Cam` component's `processFrame` loop:
`if (layer.visible === false) continue;` then `layer.onFrame(...)` if
present, then `ctx.save(); layer.render(...); ctx.restore()` if present.
Returns the invocation events together with whether a callback threw
(there is no try/catch around either call, so a throw ends the layer round
at that point). -/
def layerRun (layer : Layer) : List TickEvent × Bool :=
  if layer.visible = some false then ([], false)
  else
    match layer.onFrame, layer.render with
    | some true, _ => ([TickEvent.onFrame layer.id], true)
    | none, none => ([], false)
    | none, some false => ([TickEvent.draw layer.id], false)
    | none, some true => ([TickEvent.draw layer.id], true)
    | some false, none => ([TickEvent.onFrame layer.id], false)
    | some false, some false => ([TickEvent.onFrame layer.id, TickEvent.draw layer.id], false)
    | some false, some true => ([TickEvent.onFrame layer.id, TickEvent.draw layer.id], true)

/-- The `for (const layer of sortedLayers)` loop of the `Cam` component's
`processFrame`: runs layers in list order; an uncaught throw from a layer
callback propagates, so later layers are not reached. -/
def camTickGo : List Layer → List TickEvent × Bool
  | [] => ([], false)
  | layer :: rest =>
    let r := layerRun layer
    if r.2 then (r.1, true)
    else
      let rr := camTickGo rest
      (r.1 ++ rr.1, rr.2)

/-- Result of one tick's layer round. -/
structure TickResult where
  events : List TickEvent
  threw : Bool
  scheduledNext : Bool
deriving DecidableEq, Repr

/-- One tick of the `Cam` component's `processFrame` (the layer round):
the layers are re-sorted by order key (`[...managedLayers].sort(...)`),
the loop runs, and the closing `requestAnimationFrame(processFrame)` at the
end of the function is reached only if no callback threw. -/
def camTick (managedLayers : List Layer) : TickResult :=
  let r := camTickGo (sortedLayers managedLayers)
  { events := r.1, threw := r.2, scheduledNext := !r.2 }

/-- Mutable state of `useFrameProcessor` (`src/hooks/useFrameProcessor.ts`):
`lastFrameTimeRef`, `frameCountRef`, `isProcessingRef`. -/
structure SchedulerState where
  lastFrameTime : ℚ
  frameCount : Nat
  isProcessing : Bool
deriving DecidableEq, Repr

/-- Outcome of one invocation of the scheduler's `processFrame`. -/
structure SchedulerResult where
  state : SchedulerState
  fired : Bool
  rescheduled : Bool
  caughtError : Bool
deriving DecidableEq, Repr

/-- Truncation toward zero, as used by the source language's `%` operator. -/
def truncTowardZero (q : ℚ) : Int :=
  if 0 ≤ q then ⌊q⌋ else ⌈q⌉

/-- The source language's remainder `a % b`: `a - b * trunc(a / b)` (the
result carries the sign of the dividend). -/
def jsMod (a b : ℚ) : ℚ :=
  a - b * (truncTowardZero (a / b) : ℚ)

/-- The skip test `elapsed < 1000 / targetFPS` of the scheduler.  Division
follows IEEE-754 in the source, so `1000 / 0` is positive infinity and every
finite `elapsed` passes the test; that case is made explicit here because
rational division by zero would not model it. -/
def skipsFrame (elapsed targetFPS : ℚ) : Bool :=
  if targetFPS = 0 then true else decide (elapsed < 1000 / targetFPS)

/-- One invocation of `processFrame` from `src/hooks/useFrameProcessor.ts`:
return immediately if `!enabled` (without rescheduling); skip and reschedule
if the elapsed time is below the target interval; skip and reschedule if a
previous invocation is still marked in flight; otherwise advance
`lastFrameTime` to `now - (elapsed % targetFrameTime)`, bump the frame
count, invoke the callback inside try/catch (an error is caught and logged),
reset the in-flight flag in the finally block, and reschedule. -/
def processFrameStep (enabled : Bool) (targetFPS now : ℚ) (cbThrows : Bool)
    (s : SchedulerState) : SchedulerResult :=
  if !enabled then ⟨s, false, false, false⟩
  else
    let elapsed := now - s.lastFrameTime
    if skipsFrame elapsed targetFPS then ⟨s, false, true, false⟩
    else if s.isProcessing then ⟨s, false, true, false⟩
    else
      let targetFrameTime := 1000 / targetFPS
      { state :=
          { lastFrameTime := now - jsMod elapsed targetFrameTime
            frameCount := s.frameCount + 1
            isProcessing := false }
        fired := true
        rescheduled := true
        caughtError := cbThrows }

/-- One pointer dispatch performed by `handleCanvasClick`: either a layer's
`onClick` or the component-level `onClick`, with the canvas-local point. -/
inductive ClickDispatch where
  | layer (layerId : String) (x y : ℚ)
  | global (x y : ℚ)
deriving DecidableEq, Repr

/-- `handleCanvasClick` from the `Cam` component: converts the client point
to canvas-local coordinates via the bounding rectangle, then, for every
layer of `managedLayers` (the registry's sorted view) with
`layer.interactive && layer.onClick`, invokes that layer's `onClick` with
the event, and finally invokes the component-level `onClick` if configured.
The source performs no bounds or hit test before dispatching (its comment
reads "Check if click is within layer bounds (simplified for now)"), and
`handleCanvasTouch` dispatches identically. -/
def handleCanvasClick (managedLayers : List Layer) (clientX clientY rectLeft rectTop : ℚ)
    (hasGlobalOnClick : Bool) : List ClickDispatch :=
  let x := clientX - rectLeft
  let y := clientY - rectTop
  ((managedLayers.filter (fun l => l.interactive.getD false && l.onClick)).map
      (fun l => ClickDispatch.layer l.id x y)) ++
    (if hasGlobalOnClick then [ClickDispatch.global x y] else [])

/-- A layer lifecycle invocation. -/
inductive LifecycleEvent where
  | mount (layerId : String)
  | unmount (layerId : String)
deriving DecidableEq, Repr

/-- The cleanup of the `Cam` component's layer-lifecycle effect: for every
layer of the previous `managedLayers`, invoke `onUnmount` if present. -/
def unmountAll (managedLayers : List Layer) : List LifecycleEvent :=
  managedLayers.filterMap
    (fun l => if l.onUnmount then some (LifecycleEvent.unmount l.id) else none)

/-- The body of the `Cam` component's layer-lifecycle effect: for every
layer of `managedLayers`, invoke `onMount` if present. -/
def mountAll (managedLayers : List Layer) : List LifecycleEvent :=
  managedLayers.filterMap
    (fun l => if l.onMount then some (LifecycleEvent.mount l.id) else none)

/-! ### General list lemmas used by the development -/

/-- Characterisation of `List.find?` returning `some`: the list splits at the
returned element, everything before it failing the test. -/
theorem find_eq_some_split {α : Type} (p : α → Bool) (b : α) :
    ∀ l : List α, l.find? p = some b ↔
      ∃ l₁ l₂, l = l₁ ++ b :: l₂ ∧ p b = true ∧ ∀ a ∈ l₁, p a = false
  | [] => by simp
  | x :: xs => by
    by_cases hx : p x
    · have hfind : (x :: xs).find? p = some x := by simp [List.find?, hx]
      rw [hfind]
      constructor
      · intro h
        obtain rfl : x = b := by injection h
        exact ⟨[], xs, rfl, hx, by intro a ha; simp at ha⟩
      · rintro ⟨l₁, l₂, heq, hpb, hall⟩
        cases l₁ with
        | nil =>
          rw [List.nil_append] at heq
          obtain ⟨h1, h2⟩ := List.cons.inj heq
          rw [h1]
        | cons y ys =>
          rw [List.cons_append] at heq
          obtain ⟨h1, h2⟩ := List.cons.inj heq
          have hy : p y = false := hall y (by simp)
          rw [← h1, hx] at hy
          cases hy
    · have hfind : (x :: xs).find? p = xs.find? p := by
        simp [List.find?, Bool.eq_false_iff.mpr hx]
      rw [hfind, find_eq_some_split p b xs]
      constructor
      · rintro ⟨l₁, l₂, heq, hpb, hall⟩
        refine ⟨x :: l₁, l₂, by rw [heq, List.cons_append], hpb, ?_⟩
        intro a ha
        rcases List.mem_cons.mp ha with rfl | h
        · exact Bool.eq_false_iff.mpr hx
        · exact hall a h
      · rintro ⟨l₁, l₂, heq, hpb, hall⟩
        cases l₁ with
        | nil =>
          rw [List.nil_append] at heq
          obtain ⟨h1, h2⟩ := List.cons.inj heq
          rw [h1] at hx
          exact absurd hpb hx
        | cons y ys =>
          rw [List.cons_append] at heq
          obtain ⟨h1, h2⟩ := List.cons.inj heq
          exact ⟨ys, l₂, h2, hpb, fun a ha => hall a (List.mem_cons_of_mem y ha)⟩

/-- `List.find?` returns `none` exactly when no element passes the test. -/
theorem find_eq_none_all {α : Type} (p : α → Bool) :
    ∀ l : List α, l.find? p = none ↔ ∀ a ∈ l, p a = false
  | [] => by simp
  | x :: xs => by
    by_cases hx : p x
    · have hfind : (x :: xs).find? p = some x := by simp [List.find?, hx]
      simp [hfind, hx]
    · have hfind : (x :: xs).find? p = xs.find? p := by
        simp [List.find?, Bool.eq_false_iff.mpr hx]
      simp [hfind, find_eq_none_all p xs, Bool.eq_false_iff.mpr hx]

/-- Reversing a list split around an element. -/
theorem reverse_append_cons {α : Type} (l₁ l₂ : List α) (b : α) :
    (l₁ ++ b :: l₂).reverse = l₂.reverse ++ b :: l₁.reverse := by
  rw [List.reverse_append, List.reverse_cons, List.append_assoc, List.singleton_append]

/-! ### C9: inclusive bounding-box hit test, topmost detection lookup -/

/-- C9.  `isPointInBoundingBox` treats the box boundaries inclusively: for a
box of nonnegative width and height, a point is inside exactly when
`bbox.x ≤ x ≤ bbox.x + width` and `bbox.y ≤ y ≤ bbox.y + height`, so the
top-left and bottom-right corners (hence every edge point) count as hits.
`findDetectionAtPoint` returns the last detection of the array whose box
contains the point — the topmost under the array's z-order convention — and
`none` exactly when no detection's box contains it. -/
theorem pointInBox_inclusive_and_find_topmost (x y : ℚ) (b : BoundingBox)
    (ds : List Detection) (d : Detection) (hw : 0 ≤ b.width) (hh : 0 ≤ b.height) :
    (isPointInBoundingBox x y b = true ↔
      b.x ≤ x ∧ x ≤ b.x + b.width ∧ b.y ≤ y ∧ y ≤ b.y + b.height) ∧
    isPointInBoundingBox b.x b.y b = true ∧
    isPointInBoundingBox (b.x + b.width) (b.y + b.height) b = true ∧
    (findDetectionAtPoint x y ds = some d ↔
      ∃ pre post, ds = pre ++ d :: post ∧ isPointInBoundingBox x y d.bbox = true ∧
        ∀ e ∈ post, isPointInBoundingBox x y e.bbox = false) ∧
    (findDetectionAtPoint x y ds = none ↔
      ∀ e ∈ ds, isPointInBoundingBox x y e.bbox = false) := by
  refine ⟨?_, ?_, ?_, ?_, ?_⟩
  · simp [isPointInBoundingBox, and_assoc]
  · simp only [isPointInBoundingBox]
    simp [hw, hh]
  · simp only [isPointInBoundingBox]
    simp only [Bool.and_eq_true, decide_eq_true_eq]
    refine ⟨⟨⟨by linarith, by linarith⟩, by linarith⟩, by linarith⟩
  · rw [findDetectionAtPoint, find_eq_some_split]
    constructor
    · rintro ⟨l₁, l₂, heq, hpd, hall⟩
      refine ⟨l₂.reverse, l₁.reverse, ?_, hpd, ?_⟩
      · have : ds.reverse.reverse = (l₁ ++ d :: l₂).reverse := by rw [heq]
        rwa [List.reverse_reverse, reverse_append_cons] at this
      · intro e he
        exact hall e (List.mem_reverse.mp he)
    · rintro ⟨pre, post, heq, hpd, hall⟩
      refine ⟨post.reverse, pre.reverse, ?_, hpd, ?_⟩
      · rw [heq, reverse_append_cons]
      · intro a ha
        exact hall a (List.mem_reverse.mp ha)
  · rw [findDetectionAtPoint, find_eq_none_all]
    constructor
    · intro h e he
      exact h e (List.mem_reverse.mpr he)
    · intro h e he
      exact h e (List.mem_reverse.mp he)

/-- Witness for C9 at the spec's sample geometry: the detection batch holds
one face at bounding box `(10, 10, 50, 50)` and the point is `(30, 30)`;
additionally the box's own corner `(10, 10)` counts as a hit and the lookup
finds the detection. -/
theorem pointInBox_inclusive_and_find_topmost_witness :
    (0 : ℚ) ≤ 50 ∧ (0 : ℚ) ≤ 50 ∧
    ((isPointInBoundingBox 30 30 ⟨10, 10, 50, 50⟩ = true ↔
      (10 : ℚ) ≤ 30 ∧ (30 : ℚ) ≤ 10 + 50 ∧ (10 : ℚ) ≤ 30 ∧ (30 : ℚ) ≤ 10 + 50) ∧
    isPointInBoundingBox 10 10 ⟨10, 10, 50, 50⟩ = true ∧
    isPointInBoundingBox (10 + 50) (10 + 50) ⟨10, 10, 50, 50⟩ = true ∧
    (findDetectionAtPoint 30 30 [⟨"d1", "Face", 9 / 10, ⟨10, 10, 50, 50⟩, 100⟩] =
        some ⟨"d1", "Face", 9 / 10, ⟨10, 10, 50, 50⟩, 100⟩ ↔
      ∃ pre post,
        [⟨"d1", "Face", 9 / 10, ⟨10, 10, 50, 50⟩, 100⟩] =
            pre ++ (⟨"d1", "Face", 9 / 10, ⟨10, 10, 50, 50⟩, 100⟩ : Detection) :: post ∧
          isPointInBoundingBox 30 30 (⟨10, 10, 50, 50⟩ : BoundingBox) = true ∧
          ∀ e ∈ post, isPointInBoundingBox 30 30 e.bbox = false) ∧
    (findDetectionAtPoint 30 30 [⟨"d1", "Face", 9 / 10, ⟨10, 10, 50, 50⟩, 100⟩] = none ↔
      ∀ e ∈ [(⟨"d1", "Face", 9 / 10, ⟨10, 10, 50, 50⟩, 100⟩ : Detection)],
        isPointInBoundingBox 30 30 e.bbox = false)) := by
  refine ⟨by norm_num, by norm_num, ?_⟩
  exact pointInBox_inclusive_and_find_topmost 30 30 ⟨10, 10, 50, 50⟩
    [⟨"d1", "Face", 9 / 10, ⟨10, 10, 50, 50⟩, 100⟩]
    ⟨"d1", "Face", 9 / 10, ⟨10, 10, 50, 50⟩, 100⟩ (by norm_num) (by norm_num)

/-! ### C10: overlap area bounds and division safety of IoU -/

/-- C10.  For boxes of nonnegative width and height, `getOverlapArea` is
nonnegative and at most either box's area; `getIoU` returns `0` when the
overlap area is `0`, its union denominator is strictly positive whenever the
overlap area is nonzero (so the division is never by zero), and the result
always lies in `[0, 1]`. -/
theorem overlap_and_iou_bounds (b1 b2 : BoundingBox)
    (hw1 : 0 ≤ b1.width) (hh1 : 0 ≤ b1.height) (hw2 : 0 ≤ b2.width) (hh2 : 0 ≤ b2.height) :
    0 ≤ getOverlapArea b1 b2 ∧
    getOverlapArea b1 b2 ≤ getDetectionArea b1 ∧
    getOverlapArea b1 b2 ≤ getDetectionArea b2 ∧
    (getOverlapArea b1 b2 = 0 → getIoU b1 b2 = 0) ∧
    (getOverlapArea b1 b2 ≠ 0 →
      0 < getDetectionArea b1 + getDetectionArea b2 - getOverlapArea b1 b2) ∧
    0 ≤ getIoU b1 b2 ∧ getIoU b1 b2 ≤ 1 := by
  have harea1 : getDetectionArea b1 = b1.width * b1.height := rfl
  have harea2 : getDetectionArea b2 = b2.width * b2.height := rfl
  have hbase : 0 ≤ getOverlapArea b1 b2 ∧
      getOverlapArea b1 b2 ≤ getDetectionArea b1 ∧
      getOverlapArea b1 b2 ≤ getDetectionArea b2 := by
    by_cases hov : doDetectionsOverlap b1 b2 = true
    · have hsep := hov
      simp only [doDetectionsOverlap, Bool.not_eq_true', Bool.or_eq_false_iff,
        decide_eq_false_iff_not, not_lt] at hsep
      obtain ⟨⟨⟨h1, h2⟩, h3⟩, h4⟩ := hsep
      have ho : getOverlapArea b1 b2 =
          (min (b1.x + b1.width) (b2.x + b2.width) - max b1.x b2.x) *
            (min (b1.y + b1.height) (b2.y + b2.height) - max b1.y b2.y) := by
        simp [getOverlapArea, hov]
      have hx0 : max b1.x b2.x ≤ min (b1.x + b1.width) (b2.x + b2.width) :=
        max_le (le_min (by linarith) (by linarith)) (le_min (by linarith) (by linarith))
      have hy0 : max b1.y b2.y ≤ min (b1.y + b1.height) (b2.y + b2.height) :=
        max_le (le_min (by linarith) (by linarith)) (le_min (by linarith) (by linarith))
      have hxw1 : min (b1.x + b1.width) (b2.x + b2.width) - max b1.x b2.x ≤ b1.width := by
        have := min_le_left (b1.x + b1.width) (b2.x + b2.width)
        have := le_max_left b1.x b2.x
        linarith
      have hxw2 : min (b1.x + b1.width) (b2.x + b2.width) - max b1.x b2.x ≤ b2.width := by
        have := min_le_right (b1.x + b1.width) (b2.x + b2.width)
        have := le_max_right b1.x b2.x
        linarith
      have hyh1 : min (b1.y + b1.height) (b2.y + b2.height) - max b1.y b2.y ≤ b1.height := by
        have := min_le_left (b1.y + b1.height) (b2.y + b2.height)
        have := le_max_left b1.y b2.y
        linarith
      have hyh2 : min (b1.y + b1.height) (b2.y + b2.height) - max b1.y b2.y ≤ b2.height := by
        have := min_le_right (b1.y + b1.height) (b2.y + b2.height)
        have := le_max_right b1.y b2.y
        linarith
      refine ⟨?_, ?_, ?_⟩
      · rw [ho]
        exact mul_nonneg (by linarith) (by linarith)
      · rw [ho, harea1]
        exact mul_le_mul hxw1 hyh1 (by linarith) hw1
      · rw [ho, harea2]
        exact mul_le_mul hxw2 hyh2 (by linarith) hw2
    · have ho : getOverlapArea b1 b2 = 0 := by
        simp [getOverlapArea, Bool.eq_false_iff.mpr hov]
      rw [ho, harea1, harea2]
      exact ⟨le_refl 0, mul_nonneg hw1 hh1, mul_nonneg hw2 hh2⟩
  obtain ⟨ho0, ho1, ho2⟩ := hbase
  have hzero : getOverlapArea b1 b2 = 0 → getIoU b1 b2 = 0 := by
    intro h
    simp [getIoU, h]
  have hunion : getOverlapArea b1 b2 ≠ 0 →
      0 < getDetectionArea b1 + getDetectionArea b2 - getOverlapArea b1 b2 := by
    intro hne
    have hpos : 0 < getOverlapArea b1 b2 := lt_of_le_of_ne ho0 (Ne.symm hne)
    linarith
  refine ⟨ho0, ho1, ho2, hzero, hunion, ?_, ?_⟩
  · by_cases hne : getOverlapArea b1 b2 = 0
    · rw [hzero hne]
    · have hiou : getIoU b1 b2 = getOverlapArea b1 b2 /
          (getDetectionArea b1 + getDetectionArea b2 - getOverlapArea b1 b2) := by
        simp [getIoU, hne, getDetectionArea]
      rw [hiou]
      exact le_of_lt (div_pos (lt_of_le_of_ne ho0 (Ne.symm hne)) (hunion hne))
  · by_cases hne : getOverlapArea b1 b2 = 0
    · rw [hzero hne]
      norm_num
    · have hiou : getIoU b1 b2 = getOverlapArea b1 b2 /
          (getDetectionArea b1 + getDetectionArea b2 - getOverlapArea b1 b2) := by
        simp [getIoU, hne, getDetectionArea]
      rw [hiou]
      rw [div_le_one (hunion hne)]
      linarith

/-- Witness for C10 on two overlapping unit-scale boxes: `(0,0) 10×10` and
`(5,5) 10×10`. -/
theorem overlap_and_iou_bounds_witness :
    (0 : ℚ) ≤ 10 ∧
    (0 ≤ getOverlapArea ⟨0, 0, 10, 10⟩ ⟨5, 5, 10, 10⟩ ∧
    getOverlapArea ⟨0, 0, 10, 10⟩ ⟨5, 5, 10, 10⟩ ≤ getDetectionArea ⟨0, 0, 10, 10⟩ ∧
    getOverlapArea ⟨0, 0, 10, 10⟩ ⟨5, 5, 10, 10⟩ ≤ getDetectionArea ⟨5, 5, 10, 10⟩ ∧
    (getOverlapArea ⟨0, 0, 10, 10⟩ ⟨5, 5, 10, 10⟩ = 0 → getIoU ⟨0, 0, 10, 10⟩ ⟨5, 5, 10, 10⟩ = 0) ∧
    (getOverlapArea ⟨0, 0, 10, 10⟩ ⟨5, 5, 10, 10⟩ ≠ 0 →
      0 < getDetectionArea ⟨0, 0, 10, 10⟩ + getDetectionArea ⟨5, 5, 10, 10⟩ -
        getOverlapArea ⟨0, 0, 10, 10⟩ ⟨5, 5, 10, 10⟩) ∧
    0 ≤ getIoU ⟨0, 0, 10, 10⟩ ⟨5, 5, 10, 10⟩ ∧ getIoU ⟨0, 0, 10, 10⟩ ⟨5, 5, 10, 10⟩ ≤ 1) :=
  ⟨by norm_num,
    overlap_and_iou_bounds ⟨0, 0, 10, 10⟩ ⟨5, 5, 10, 10⟩
      (by norm_num) (by norm_num) (by norm_num) (by norm_num)⟩

/-! ### C5: id uniqueness is preserved by every registry operation -/

/-- `applyUpdate` never changes the layer's id. -/
theorem applyUpdate_id (layer : Layer) (u : LayerUpdate) :
    (applyUpdate layer u).id = layer.id := rfl

/-- `updateLayer` leaves the id sequence of the list untouched. -/
theorem updateLayer_map_id (layerId : String) (u : LayerUpdate) (layers : List Layer) :
    (updateLayer layerId u layers).map Layer.id = layers.map Layer.id := by
  unfold updateLayer
  rw [List.map_map]
  apply List.map_congr_left
  intro layer _
  by_cases h : layer.id = layerId <;> simp [h, applyUpdate_id]

/-- A single registry operation preserves distinctness of ids. -/
theorem nodup_applyOp (layers : List Layer) (op : RegistryOp)
    (h : (layers.map Layer.id).Nodup) : ((applyOp layers op).map Layer.id).Nodup := by
  cases op with
  | add layer =>
    simp only [applyOp, addLayer]
    by_cases hdup : layers.any (fun l => l.id == layer.id)
    · simpa [hdup] using h
    · have hnotmem : layer.id ∉ layers.map Layer.id := by
        intro hmem
        obtain ⟨l, hl, hid⟩ := List.mem_map.mp hmem
        exact hdup (List.any_eq_true.mpr ⟨l, hl, by simp [hid]⟩)
      simp only [hdup, Bool.false_eq_true, if_false, List.map_append, List.map_cons,
        List.map_nil]
      exact List.Nodup.append h (List.nodup_singleton _)
        (by simpa [List.disjoint_singleton] using hnotmem)
  | remove layerId =>
    simp only [applyOp, removeLayer]
    exact h.sublist ((List.filter_sublist layers).map Layer.id)
  | update layerId updates =>
    simpa [applyOp, updateLayer_map_id] using h

/-- A sequence of registry operations preserves distinctness of ids. -/
theorem nodup_applyOps (ops : List RegistryOp) (layers : List Layer)
    (h : (layers.map Layer.id).Nodup) : ((applyOps ops layers).map Layer.id).Nodup := by
  induction ops generalizing layers with
  | nil => exact h
  | cons op ops ih =>
    rw [applyOps, List.foldl_cons]
    exact ih (applyOp layers op) (nodup_applyOp layers op h)

/-- C5.  Starting from a layer list with pairwise-distinct ids, every
sequence of `addLayer` / `removeLayer` / `updateLayer` calls preserves
distinctness; and adding a layer whose id is already present is a reported
no-op — the list is returned unchanged with a duplicate-id report — so the
registry still holds exactly one layer with that id. -/
theorem registry_id_uniqueness (ops : List RegistryOp) (layers : List Layer) (layer : Layer)
    (h : (layers.map Layer.id).Nodup) (hmem : layer.id ∈ layers.map Layer.id) :
    ((applyOps ops layers).map Layer.id).Nodup ∧
    addLayer layer layers = (layers, [Report.duplicateLayerId layer.id]) ∧
    (layers.map Layer.id).count layer.id = 1 := by
  refine ⟨nodup_applyOps ops layers h, ?_, ?_⟩
  · have hdup : layers.any (fun l => l.id == layer.id) = true := by
      obtain ⟨l, hl, hid⟩ := List.mem_map.mp hmem
      exact List.any_eq_true.mpr ⟨l, hl, by simp [hid]⟩
    simp [addLayer, hdup]
  · exact List.count_eq_one_of_mem h hmem

/-- Witness for C5: registry `[x]`, a second registration under the id
`"x"`, and a mixed operation sequence (duplicate add, removal of an absent
id, update of `"x"`). -/
theorem registry_id_uniqueness_witness :
    (([⟨"x", none, some 1, none, none, false, false, none, false, false⟩] :
        List Layer).map Layer.id).Nodup ∧
    (⟨"x", some true, some 5, none, none, false, false, none, false, false⟩ : Layer).id ∈
      ([⟨"x", none, some 1, none, none, false, false, none, false, false⟩] :
        List Layer).map Layer.id ∧
    (((applyOps
        [RegistryOp.add ⟨"x", some true, some 5, none, none, false, false, none, false, false⟩,
         RegistryOp.remove "absent",
         RegistryOp.update "x" ⟨some "y", none, some (some 7), none⟩]
        [⟨"x", none, some 1, none, none, false, false, none, false, false⟩]).map Layer.id).Nodup ∧
    addLayer ⟨"x", some true, some 5, none, none, false, false, none, false, false⟩
        [⟨"x", none, some 1, none, none, false, false, none, false, false⟩] =
      ([⟨"x", none, some 1, none, none, false, false, none, false, false⟩],
        [Report.duplicateLayerId "x"]) ∧
    (([⟨"x", none, some 1, none, none, false, false, none, false, false⟩] :
        List Layer).map Layer.id).count "x" = 1) := by
  refine ⟨by decide, by decide, ?_⟩
  exact registry_id_uniqueness
    [RegistryOp.add ⟨"x", some true, some 5, none, none, false, false, none, false, false⟩,
     RegistryOp.remove "absent",
     RegistryOp.update "x" ⟨some "y", none, some (some 7), none⟩]
    [⟨"x", none, some 1, none, none, false, false, none, false, false⟩]
    ⟨"x", some true, some 5, none, none, false, false, none, false, false⟩
    (by decide) (by decide)

/-! ### C6: the ordered view — ascending order key, ties by registration order -/

/-- Elements skipped over by an ordered insertion have strictly smaller key
than the inserted element, so inserting preserves the subsequence of any
fixed key class: the inserted element lands in front of its own class and
every other class is untouched. -/
theorem filterKey_orderedInsert (a : Layer) (l : List Layer) (k : Int) :
    (l.orderedInsert keyLE a).filter (fun x => sortKey x == k) =
      if sortKey a == k then a :: l.filter (fun x => sortKey x == k)
      else l.filter (fun x => sortKey x == k) := by
  rw [List.orderedInsert_eq_take_drop, List.filter_append, List.filter_cons]
  have htake : (l.takeWhile fun b => decide ¬keyLE a b).filter (fun x => sortKey x == k) =
      [] ∨ (sortKey a == k) = false := by
    by_cases hk : (sortKey a == k) = true
    · left
      rw [List.filter_eq_nil_iff]
      intro x hx
      have hlt : ¬keyLE a x := by simpa using List.mem_takeWhile_imp hx
      have : sortKey x < sortKey a := by
        simpa [keyLE, not_le] using hlt
      have hak : sortKey a = k := by simpa using hk
      simp only [beq_iff_eq]
      omega
    · right
      simpa using hk
  have hsplit : l.filter (fun x => sortKey x == k) =
      (l.takeWhile fun b => decide ¬keyLE a b).filter (fun x => sortKey x == k) ++
        (l.dropWhile fun b => decide ¬keyLE a b).filter (fun x => sortKey x == k) := by
    rw [← List.filter_append, List.takeWhile_append_dropWhile]
  by_cases hk : (sortKey a == k) = true
  · rcases htake with hnil | hfalse
    · rw [hk, hnil, List.nil_append, hsplit, hnil, List.nil_append]
    · rw [hk] at hfalse
      cases hfalse
  · have hk' : (sortKey a == k) = false := by simpa using hk
    rw [hk', hsplit]
    simp

/-- Stability of the registry sort: within each order-key class, the sorted
view lists layers in their original (registration) order. -/
theorem filterKey_sortedLayers (layers : List Layer) (k : Int) :
    (sortedLayers layers).filter (fun x => sortKey x == k) =
      layers.filter (fun x => sortKey x == k) := by
  unfold sortedLayers
  induction layers with
  | nil => rfl
  | cons a l ih =>
    show ((l.insertionSort keyLE).orderedInsert keyLE a).filter (fun x => sortKey x == k) = _
    rw [filterKey_orderedInsert, List.filter_cons, ih]

/-- C6.  The ordered view is the registered list sorted by order key
(missing `zIndex` read as `0`) ascending: it is a permutation of the
registration list, pairwise nondecreasing in the key, and within any fixed
key value it preserves registration order (stability, ties broken by
registration sequence).  The view is a pure, deterministic function of the
list — the source sorts a fresh copy inside a memo on each query — so
repeated queries without an intervening mutation return the identical
order. -/
theorem sortedLayers_ordered_view (layers : List Layer) (k : Int) :
    (sortedLayers layers).Sorted keyLE ∧
    List.Perm (sortedLayers layers) layers ∧
    (sortedLayers layers).filter (fun x => sortKey x == k) =
      layers.filter (fun x => sortKey x == k) :=
  ⟨List.sorted_insertionSort keyLE layers, List.perm_insertionSort keyLE layers,
    filterKey_sortedLayers layers k⟩

/-! ### C3: skip below the interval, drift-corrected advance at or above it -/

/-- C3.  For an enabled scheduler with a positive target rate and no
invocation in flight: if the elapsed time since the last accepted tick is
strictly below the interval `1000 / targetFPS`, the invocation fires
nothing and only reschedules, leaving the state untouched; if the elapsed
time is at least the interval, the callback fires exactly once (the frame
count increments by one) and the stored last-tick timestamp becomes
`now − (elapsed % interval)` — equivalently it advances by
`elapsed − (elapsed % interval)` — rather than simply `now`. -/
theorem processFrameStep_skip_and_drift (targetFPS now : ℚ) (cbThrows : Bool)
    (s : SchedulerState) (hfps : 0 < targetFPS) (hproc : s.isProcessing = false) :
    (now - s.lastFrameTime < 1000 / targetFPS →
      processFrameStep true targetFPS now cbThrows s = ⟨s, false, true, false⟩) ∧
    (1000 / targetFPS ≤ now - s.lastFrameTime →
      (processFrameStep true targetFPS now cbThrows s).fired = true ∧
      (processFrameStep true targetFPS now cbThrows s).state.frameCount = s.frameCount + 1 ∧
      (processFrameStep true targetFPS now cbThrows s).state.lastFrameTime =
        now - jsMod (now - s.lastFrameTime) (1000 / targetFPS) ∧
      (processFrameStep true targetFPS now cbThrows s).state.lastFrameTime =
        s.lastFrameTime +
          ((now - s.lastFrameTime) - jsMod (now - s.lastFrameTime) (1000 / targetFPS)) ∧
      (processFrameStep true targetFPS now cbThrows s).rescheduled = true) := by
  constructor
  · intro hlt
    have hskip : skipsFrame (now - s.lastFrameTime) targetFPS = true := by
      simp [skipsFrame, hfps.ne', hlt]
    simp [processFrameStep, hskip]
  · intro hge
    have hskip : skipsFrame (now - s.lastFrameTime) targetFPS = false := by
      simp [skipsFrame, hfps.ne', not_lt.mpr hge]
    simp only [processFrameStep, Bool.not_true, Bool.false_eq_true, if_false, hskip, hproc]
    refine ⟨trivial, trivial, trivial, by ring, trivial⟩

/-- Witness for C3 at target rate 20 (interval 50 ms): last tick at 0,
invoked at `now = 75`; the callback fires once and the timestamp advances
to `50 = 75 − (75 mod 50)`, not to `75`. -/
theorem processFrameStep_skip_and_drift_witness :
    (0 : ℚ) < 20 ∧ (⟨0, 0, false⟩ : SchedulerState).isProcessing = false ∧
    (((75 : ℚ) - (⟨0, 0, false⟩ : SchedulerState).lastFrameTime < 1000 / 20 →
      processFrameStep true 20 75 false ⟨0, 0, false⟩ = ⟨⟨0, 0, false⟩, false, true, false⟩) ∧
    (1000 / 20 ≤ (75 : ℚ) - (⟨0, 0, false⟩ : SchedulerState).lastFrameTime →
      (processFrameStep true 20 75 false ⟨0, 0, false⟩).fired = true ∧
      (processFrameStep true 20 75 false ⟨0, 0, false⟩).state.frameCount =
        (⟨0, 0, false⟩ : SchedulerState).frameCount + 1 ∧
      (processFrameStep true 20 75 false ⟨0, 0, false⟩).state.lastFrameTime =
        75 - jsMod ((75 : ℚ) - (⟨0, 0, false⟩ : SchedulerState).lastFrameTime) (1000 / 20) ∧
      (processFrameStep true 20 75 false ⟨0, 0, false⟩).state.lastFrameTime =
        (⟨0, 0, false⟩ : SchedulerState).lastFrameTime +
          (((75 : ℚ) - (⟨0, 0, false⟩ : SchedulerState).lastFrameTime) -
            jsMod ((75 : ℚ) - (⟨0, 0, false⟩ : SchedulerState).lastFrameTime) (1000 / 20)) ∧
      (processFrameStep true 20 75 false ⟨0, 0, false⟩).rescheduled = true)) :=
  ⟨by norm_num, rfl, processFrameStep_skip_and_drift 20 75 false ⟨0, 0, false⟩ (by norm_num) rfl⟩

/-! ### C4: there is no target-rate validation -/

/-- Counterexample to C4.  The claim says a non-positive `targetFPS` fails
fast with a configuration error and the tick callback is never invoked
under such a configuration.  `useFrameProcessor` performs no validation at
all, and with `targetFPS = -10` (interval `-100`) an invocation at
`now = 5` from last tick `0` has `elapsed = 5 ≥ -100`, so the callback IS
invoked. -/
theorem processFrameStep_negative_rate_fires_cex :
    ((-10 : ℚ) ≤ 0) ∧
    (processFrameStep true (-10) 5 false ⟨0, 0, false⟩).fired = true := by
  constructor
  · norm_num
  · norm_num [processFrameStep, skipsFrame]

/-- C4 as amended.  `useFrameProcessor` performs no validation of
`targetFPS` and raises no configuration error.  With `targetFPS = 0` the
interval is IEEE positive infinity, so every invocation is a skip that only
reschedules and the callback never fires; with `targetFPS < 0` the interval
is negative, so the callback fires on every invocation whose elapsed time
is at least that (negative) interval — in particular whenever
`now ≥ lastFrameTime`. -/
theorem processFrameStep_no_rate_validation (targetFPS now : ℚ) (cbThrows : Bool)
    (s : SchedulerState) (hproc : s.isProcessing = false) :
    (targetFPS = 0 →
      processFrameStep true targetFPS now cbThrows s = ⟨s, false, true, false⟩) ∧
    (targetFPS < 0 → 1000 / targetFPS ≤ now - s.lastFrameTime →
      (processFrameStep true targetFPS now cbThrows s).fired = true ∧
      (processFrameStep true targetFPS now cbThrows s).rescheduled = true) := by
  constructor
  · intro h0
    simp [processFrameStep, skipsFrame, h0]
  · intro hneg hge
    have hskip : skipsFrame (now - s.lastFrameTime) targetFPS = false := by
      simp [skipsFrame, ne_of_lt hneg, not_lt.mpr hge]
    simp [processFrameStep, hskip, hproc]

/-- Witness for the amended C4 at `targetFPS = 0`: the invocation at
`now = 42` is a pure re-schedule and the callback does not fire. -/
theorem processFrameStep_no_rate_validation_witness :
    (⟨0, 0, false⟩ : SchedulerState).isProcessing = false ∧
    (((0 : ℚ) = 0 →
      processFrameStep true 0 42 false ⟨0, 0, false⟩ = ⟨⟨0, 0, false⟩, false, true, false⟩) ∧
    ((0 : ℚ) < 0 → (1000 : ℚ) / 0 ≤ 42 - (⟨0, 0, false⟩ : SchedulerState).lastFrameTime →
      (processFrameStep true 0 42 false ⟨0, 0, false⟩).fired = true ∧
      (processFrameStep true 0 42 false ⟨0, 0, false⟩).rescheduled = true)) :=
  ⟨rfl, processFrameStep_no_rate_validation 0 42 false ⟨0, 0, false⟩ rfl⟩

/-! ### Lemmas about the per-tick layer round -/

/-- Every event a layer emits carries that layer's id. -/
theorem layerRun_owner (l : Layer) (e : TickEvent) (he : e ∈ (layerRun l).1) :
    e.owner = l.id := by
  unfold layerRun at he
  split at he
  · cases he
  · split at he <;>
      simp only [List.mem_cons, List.not_mem_nil, or_false] at he <;>
      (try rcases he with rfl | rfl) <;> rfl

/-- A layer none of whose present callbacks throws completes its turn. -/
theorem layerRun_noThrow (l : Layer) (h1 : l.onFrame ≠ some true)
    (h2 : l.render ≠ some true) : (layerRun l).2 = false := by
  unfold layerRun
  split
  · rfl
  · split <;> simp_all

/-- An invisible layer is skipped entirely: no events, no throw. -/
theorem layerRun_invisible (l : Layer) (h : l.visible = some false) :
    layerRun l = ([], false) := by
  unfold layerRun
  rw [if_pos h]

/-- The layer round distributes over an append whose first part is
throw-free. -/
theorem camTickGo_append (xs ys : List Layer) (h : ∀ l ∈ xs, (layerRun l).2 = false) :
    camTickGo (xs ++ ys) = ((camTickGo xs).1 ++ (camTickGo ys).1, (camTickGo ys).2) := by
  induction xs with
  | nil => simp [camTickGo]
  | cons x xs ih =>
    have hx : (layerRun x).2 = false := h x (List.mem_cons_self x xs)
    have hxs : ∀ l ∈ xs, (layerRun l).2 = false :=
      fun l hl => h l (List.mem_cons_of_mem x hl)
    simp [camTickGo, hx, ih hxs]

/-- A throw-free layer round completes. -/
theorem camTickGo_noThrow (ls : List Layer) (h : ∀ l ∈ ls, (layerRun l).2 = false) :
    (camTickGo ls).2 = false := by
  induction ls with
  | nil => rfl
  | cons x xs ih =>
    have hx : (layerRun x).2 = false := h x (List.mem_cons_self x xs)
    have hxs : ∀ l ∈ xs, (layerRun l).2 = false :=
      fun l hl => h l (List.mem_cons_of_mem x hl)
    simp [camTickGo, hx, ih hxs]

/-- Every event of a layer round belongs to one of the layers in it. -/
theorem camTickGo_owner_mem (ls : List Layer) (e : TickEvent)
    (he : e ∈ (camTickGo ls).1) : e.owner ∈ ls.map Layer.id := by
  induction ls with
  | nil => cases he
  | cons x xs ih =>
    simp only [camTickGo] at he
    split at he
    · rw [List.map_cons, layerRun_owner x e he]
      exact List.mem_cons_self _ _
    · rcases List.mem_append.mp he with hx | hxs
      · rw [List.map_cons, layerRun_owner x e hx]
        exact List.mem_cons_self _ _
      · exact List.mem_cons_of_mem _ (ih hxs)

/-- Filtering a layer round's events by ids foreign to the round yields
nothing. -/
theorem camTickGo_filter_foreign (ls : List Layer) (s t : String)
    (hs : s ∉ ls.map Layer.id) (ht : t ∉ ls.map Layer.id) :
    (camTickGo ls).1.filter (fun e => e.owner == s || e.owner == t) = [] := by
  rw [List.filter_eq_nil_iff]
  intro e he
  have hmem := camTickGo_owner_mem ls e he
  simp only [Bool.or_eq_true, beq_iff_eq, not_or]
  exact ⟨fun heq => hs (heq ▸ hmem), fun heq => ht (heq ▸ hmem)⟩

/-- A layer's own events all pass a filter for its id (as either disjunct). -/
theorem filter_layerRun_own (l : Layer) (s t : String) (h : l.id = s ∨ l.id = t) :
    (layerRun l).1.filter (fun e => e.owner == s || e.owner == t) = (layerRun l).1 := by
  rw [List.filter_eq_self]
  intro e he
  rcases h with rfl | rfl <;> simp [layerRun_owner l e he]

/-- A layer's own events all pass a filter for its id. -/
theorem filter_layerRun_self (l : Layer) :
    (layerRun l).1.filter (fun e => e.owner == l.id) = (layerRun l).1 := by
  rw [List.filter_eq_self]
  intro e he
  simp [layerRun_owner l e he]

/-- Filtering a layer round's events by an id foreign to the round yields
nothing. -/
theorem camTickGo_filter_absent (ls : List Layer) (s : String)
    (hs : s ∉ ls.map Layer.id) :
    (camTickGo ls).1.filter (fun e => e.owner == s) = [] := by
  rw [List.filter_eq_nil_iff]
  intro e he
  have hmem := camTickGo_owner_mem ls e he
  simp only [beq_iff_eq]
  exact fun heq => hs (heq ▸ hmem)

/-- In a throw-free round over layers with distinct ids, filtering the event
trace by one member layer's id recovers exactly that layer's own events. -/
theorem camTickGo_filter_single (ls : List Layer) (a : Layer)
    (hnd : (ls.map Layer.id).Nodup)
    (hnt : ∀ l ∈ ls, (layerRun l).2 = false) (ha : a ∈ ls) :
    (camTickGo ls).1.filter (fun e => e.owner == a.id) = (layerRun a).1 := by
  induction ls with
  | nil => cases ha
  | cons x xs ih =>
    have hx : (layerRun x).2 = false := hnt x (List.mem_cons_self x xs)
    have hxs : ∀ l ∈ xs, (layerRun l).2 = false :=
      fun l hl => hnt l (List.mem_cons_of_mem x hl)
    have hnd' := hnd
    rw [List.map_cons, List.nodup_cons] at hnd'
    have hgoal : (camTickGo (x :: xs)).1 = (layerRun x).1 ++ (camTickGo xs).1 := by
      simp [camTickGo, hx]
    rw [hgoal, List.filter_append]
    rcases List.mem_cons.mp ha with rfl | haxs
    · rw [filter_layerRun_self, camTickGo_filter_absent xs a.id hnd'.1, List.append_nil]
    · have hne : x.id ≠ a.id :=
        fun heq => hnd'.1 (heq ▸ List.mem_map.mpr ⟨a, haxs, rfl⟩)
      have hnilx : (layerRun x).1.filter (fun e => e.owner == a.id) = [] := by
        rw [List.filter_eq_nil_iff]
        intro e he
        simp only [beq_iff_eq]
        rw [layerRun_owner x e he]
        exact hne
      rw [hnilx, List.nil_append]
      exact ih hnd'.2 hxs haxs

/-- Distinctness facts extracted from a duplicate-free list split around two
elements. -/
theorem nodup_split_facts (s₁ s₂ s₃ : List String) (x y : String)
    (h : (s₁ ++ x :: (s₂ ++ y :: s₃)).Nodup) :
    x ∉ s₁ ∧ x ∉ s₂ ∧ x ∉ s₃ ∧ y ∉ s₁ ∧ y ∉ s₂ ∧ y ∉ s₃ ∧ x ≠ y := by
  rw [List.nodup_append] at h
  obtain ⟨-, h2, hdisj⟩ := h
  rw [List.nodup_cons] at h2
  obtain ⟨hx, h3⟩ := h2
  rw [List.nodup_append] at h3
  obtain ⟨-, h5, hdisj2⟩ := h3
  rw [List.nodup_cons] at h5
  obtain ⟨hy3, -⟩ := h5
  refine ⟨?_, ?_, ?_, ?_, ?_, ?_, ?_⟩
  · exact fun hm => List.disjoint_left.mp hdisj hm (List.mem_cons_self _ _)
  · exact fun hm => hx (List.mem_append_left _ hm)
  · exact fun hm => hx (List.mem_append_right _ (List.mem_cons_of_mem _ hm))
  · exact fun hm => List.disjoint_left.mp hdisj hm
      (List.mem_cons_of_mem _ (List.mem_append_right _ (List.mem_cons_self _ _)))
  · exact fun hm => List.disjoint_left.mp hdisj2 hm (List.mem_cons_self _ _)
  · exact hy3
  · exact fun heq => hx (List.mem_append_right _ (heq ▸ List.mem_cons_self _ _))

/-- In a throw-free round over layers with distinct ids, filtering the event
trace by the ids of two member layers, the earlier one's events come first,
followed by the later one's. -/
theorem camTickGo_filter_pair (s₁ s₂ s₃ : List Layer) (a b : Layer)
    (hnd : ((s₁ ++ a :: (s₂ ++ b :: s₃)).map Layer.id).Nodup)
    (hnt : ∀ l ∈ s₁ ++ a :: (s₂ ++ b :: s₃), (layerRun l).2 = false) :
    (camTickGo (s₁ ++ a :: (s₂ ++ b :: s₃))).1.filter
        (fun e => e.owner == a.id || e.owner == b.id) =
      (layerRun a).1 ++ (layerRun b).1 := by
  have hids : (s₁ ++ a :: (s₂ ++ b :: s₃)).map Layer.id =
      s₁.map Layer.id ++ a.id :: (s₂.map Layer.id ++ b.id :: s₃.map Layer.id) := by
    simp
  rw [hids] at hnd
  obtain ⟨ha1, ha2, ha3, hb1, hb2, hb3, hab⟩ :=
    nodup_split_facts (s₁.map Layer.id) (s₂.map Layer.id) (s₃.map Layer.id) a.id b.id hnd
  have hnt1 : ∀ l ∈ s₁, (layerRun l).2 = false :=
    fun l hl => hnt l (List.mem_append_left _ hl)
  have hnta : (layerRun a).2 = false :=
    hnt a (List.mem_append_right _ (List.mem_cons_self _ _))
  have hnt2 : ∀ l ∈ s₂, (layerRun l).2 = false :=
    fun l hl => hnt l (List.mem_append_right _
      (List.mem_cons_of_mem _ (List.mem_append_left _ hl)))
  have hntb : (layerRun b).2 = false :=
    hnt b (List.mem_append_right _
      (List.mem_cons_of_mem _ (List.mem_append_right _ (List.mem_cons_self _ _))))
  have hrest : ∀ l ∈ a :: (s₂ ++ b :: s₃), (layerRun l).2 = false :=
    fun l hl => hnt l (List.mem_append_right _ hl)
  have e1 : (camTickGo (s₁ ++ a :: (s₂ ++ b :: s₃))).1 =
      (camTickGo s₁).1 ++ (camTickGo (a :: (s₂ ++ b :: s₃))).1 := by
    rw [camTickGo_append s₁ _ hnt1]
  have e2 : (camTickGo (a :: (s₂ ++ b :: s₃))).1 =
      (layerRun a).1 ++ (camTickGo (s₂ ++ b :: s₃)).1 := by
    simp [camTickGo, hnta]
  have e3 : (camTickGo (s₂ ++ b :: s₃)).1 =
      (camTickGo s₂).1 ++ (camTickGo (b :: s₃)).1 := by
    rw [camTickGo_append s₂ _ hnt2]
  have e4 : (camTickGo (b :: s₃)).1 = (layerRun b).1 ++ (camTickGo s₃).1 := by
    simp [camTickGo, hntb]
  rw [e1, e2, e3, e4, List.filter_append, List.filter_append, List.filter_append,
    List.filter_append]
  rw [camTickGo_filter_foreign s₁ a.id b.id ha1 hb1,
    camTickGo_filter_foreign s₂ a.id b.id ha2 hb2,
    camTickGo_filter_foreign s₃ a.id b.id ha3 hb3,
    filter_layerRun_own a a.id b.id (Or.inl rfl),
    filter_layerRun_own b a.id b.id (Or.inr rfl)]
  simp

/-! ### C7: tick order — ascending keys, invisible skipped, onFrame before draw -/

/-- C7.  On a tick over layers with distinct ids and no throwing callbacks:
the round completes and the next frame is scheduled; the events belonging
to any registered layer are exactly that layer's own round (per-frame
callback, if present, immediately before its draw callback, if present);
a layer whose `visible` flag is `false` contributes no events at all; and
for two layers with strictly increasing order keys, all of the
lower-keyed layer's events precede all of the higher-keyed layer's.  On the
concrete scenario of layers `A` (order 1) and `B` (order 2), one tick
yields the invocation sequence `A.onFrame, A.draw, B.onFrame, B.draw`. -/
theorem camTick_layer_round (layers : List Layer) (a b : Layer)
    (hnd : (layers.map Layer.id).Nodup)
    (hnt : ∀ l ∈ layers, l.onFrame ≠ some true ∧ l.render ≠ some true)
    (ha : a ∈ layers) (hb : b ∈ layers) (hk : sortKey a < sortKey b) :
    (camTick layers).threw = false ∧
    (camTick layers).scheduledNext = true ∧
    (camTick layers).events.filter (fun e => e.owner == a.id) = (layerRun a).1 ∧
    (a.visible = some false →
      (camTick layers).events.filter (fun e => e.owner == a.id) = []) ∧
    (camTick layers).events.filter (fun e => e.owner == a.id || e.owner == b.id) =
      (layerRun a).1 ++ (layerRun b).1 ∧
    camTick [⟨"A", none, some 1, some false, some false, false, false, none, false, false⟩,
             ⟨"B", none, some 2, some false, some false, false, false, none, false, false⟩] =
      ⟨[TickEvent.onFrame "A", TickEvent.draw "A", TickEvent.onFrame "B", TickEvent.draw "B"],
        false, true⟩ := by
  have hperm : List.Perm (sortedLayers layers) layers := List.perm_insertionSort keyLE layers
  have hntS : ∀ l ∈ sortedLayers layers, (layerRun l).2 = false := fun l hl =>
    layerRun_noThrow l (hnt l (hperm.mem_iff.mp hl)).1 (hnt l (hperm.mem_iff.mp hl)).2
  have hndS : ((sortedLayers layers).map Layer.id).Nodup :=
    ((hperm.map Layer.id).nodup_iff).mpr hnd
  have hevents : (camTick layers).events = (camTickGo (sortedLayers layers)).1 := rfl
  have hthrew : (camTick layers).threw = false := camTickGo_noThrow _ hntS
  have hsingle : (camTick layers).events.filter (fun e => e.owner == a.id) = (layerRun a).1 := by
    rw [hevents]
    exact camTickGo_filter_single _ a hndS hntS (hperm.mem_iff.mpr ha)
  refine ⟨hthrew, ?_, hsingle, ?_, ?_, by decide⟩
  · have hsched : (camTick layers).scheduledNext = !(camTickGo (sortedLayers layers)).2 := rfl
    rw [hsched, camTickGo_noThrow _ hntS]
    rfl
  · intro hvis
    rw [hsingle, layerRun_invisible a hvis]
  · have hsorted : (sortedLayers layers).Sorted keyLE := List.sorted_insertionSort keyLE layers
    have haS : a ∈ sortedLayers layers := hperm.mem_iff.mpr ha
    have hbS : b ∈ sortedLayers layers := hperm.mem_iff.mpr hb
    obtain ⟨s₁, s₂', heq⟩ := List.append_of_mem haS
    have hbmem : b ∈ s₁ ++ a :: s₂' := heq ▸ hbS
    rcases List.mem_append.mp hbmem with hb1 | hb2
    · exfalso
      rw [heq] at hsorted
      obtain ⟨-, -, hcross⟩ := List.pairwise_append.mp hsorted
      exact not_le.mpr hk (hcross b hb1 a (List.mem_cons_self _ _))
    · rcases List.mem_cons.mp hb2 with rfl | hb3
      · exact absurd hk (lt_irrefl _)
      · obtain ⟨s₂, s₃, heq2⟩ := List.append_of_mem hb3
        have heqS : sortedLayers layers = s₁ ++ a :: (s₂ ++ b :: s₃) := by
          rw [heq, heq2]
        rw [hevents, heqS]
        exact camTickGo_filter_pair s₁ s₂ s₃ a b (by rw [← heqS]; exact hndS)
          (fun l hl => hntS l (by rw [heqS]; exact hl))

/-- Witness for C7 at the spec's own scenario: layers `A` (order 1) and `B`
(order 2), both with per-frame and draw callbacks. -/
theorem camTick_layer_round_witness :
    (([⟨"A", none, some 1, some false, some false, false, false, none, false, false⟩,
       ⟨"B", none, some 2, some false, some false, false, false, none, false, false⟩] :
        List Layer).map Layer.id).Nodup ∧
    (∀ l ∈ ([⟨"A", none, some 1, some false, some false, false, false, none, false, false⟩,
             ⟨"B", none, some 2, some false, some false, false, false, none, false, false⟩] :
        List Layer), l.onFrame ≠ some true ∧ l.render ≠ some true) ∧
    (⟨"A", none, some 1, some false, some false, false, false, none, false, false⟩ : Layer) ∈
      ([⟨"A", none, some 1, some false, some false, false, false, none, false, false⟩,
        ⟨"B", none, some 2, some false, some false, false, false, none, false, false⟩] :
        List Layer) ∧
    sortKey (⟨"A", none, some 1, some false, some false, false, false, none, false, false⟩ :
        Layer) <
      sortKey (⟨"B", none, some 2, some false, some false, false, false, none, false, false⟩ :
        Layer) ∧
    ((camTick [⟨"A", none, some 1, some false, some false, false, false, none, false, false⟩,
        ⟨"B", none, some 2, some false, some false, false, false, none, false, false⟩]).threw =
        false ∧
      (camTick [⟨"A", none, some 1, some false, some false, false, false, none, false, false⟩,
        ⟨"B", none, some 2, some false, some false, false, false, none, false,
          false⟩]).scheduledNext = true ∧
      (camTick [⟨"A", none, some 1, some false, some false, false, false, none, false, false⟩,
        ⟨"B", none, some 2, some false, some false, false, false, none, false,
          false⟩]).events.filter (fun e => e.owner == "A") =
        (layerRun ⟨"A", none, some 1, some false, some false, false, false, none, false,
          false⟩).1 ∧
      ((⟨"A", none, some 1, some false, some false, false, false, none, false, false⟩ :
          Layer).visible = some false →
        (camTick [⟨"A", none, some 1, some false, some false, false, false, none, false, false⟩,
          ⟨"B", none, some 2, some false, some false, false, false, none, false,
            false⟩]).events.filter (fun e => e.owner == "A") = []) ∧
      (camTick [⟨"A", none, some 1, some false, some false, false, false, none, false, false⟩,
        ⟨"B", none, some 2, some false, some false, false, false, none, false,
          false⟩]).events.filter (fun e => e.owner == "A" || e.owner == "B") =
        (layerRun ⟨"A", none, some 1, some false, some false, false, false, none, false,
          false⟩).1 ++
          (layerRun ⟨"B", none, some 2, some false, some false, false, false, none, false,
            false⟩).1 ∧
      camTick [⟨"A", none, some 1, some false, some false, false, false, none, false, false⟩,
          ⟨"B", none, some 2, some false, some false, false, false, none, false, false⟩] =
        ⟨[TickEvent.onFrame "A", TickEvent.draw "A", TickEvent.onFrame "B", TickEvent.draw "B"],
          false, true⟩) :=
  ⟨by decide, by decide, by decide, by decide,
    camTick_layer_round
      [⟨"A", none, some 1, some false, some false, false, false, none, false, false⟩,
       ⟨"B", none, some 2, some false, some false, false, false, none, false, false⟩]
      ⟨"A", none, some 1, some false, some false, false, false, none, false, false⟩
      ⟨"B", none, some 2, some false, some false, false, false, none, false, false⟩
      (by decide) (by decide) (by decide) (by decide) (by decide)⟩

/-! ### C2: a layer error is NOT isolated — it aborts the tick -/

/-- Counterexample to C2.  The claim says that when one layer's per-frame or
draw callback raises during a tick, the error is caught and reported, all
subsequent layers still run, and the next tick is still scheduled.  In the
`Cam` component's `processFrame` there is no try/catch around the layer
loop: with layer `A` (order 1) whose `onFrame` throws and layer `B`
(order 2) with healthy callbacks, the tick's trace contains only `A.onFrame`
— `B` is never invoked — the exception escapes the loop, and the closing
`requestAnimationFrame` call is never reached, so no next tick is
scheduled from this one. -/
theorem camTick_error_not_isolated_cex :
    (camTick [⟨"A", none, some 1, some true, none, false, false, none, false, false⟩,
       ⟨"B", none, some 2, some false, some false, false, false, none, false, false⟩]).events =
      [TickEvent.onFrame "A"] ∧
    (camTick [⟨"A", none, some 1, some true, none, false, false, none, false, false⟩,
       ⟨"B", none, some 2, some false, some false, false, false, none, false, false⟩]).threw =
      true ∧
    (camTick [⟨"A", none, some 1, some true, none, false, false, none, false, false⟩,
       ⟨"B", none, some 2, some false, some false, false, false, none, false,
         false⟩]).scheduledNext = false := by
  decide

/-- C2 as amended.  In the `Cam` component's layer loop an error thrown by a
layer callback propagates out of the tick: the layers before the offender
run, the offender's events up to the throw are emitted, no later layer of
the round is invoked, and the tick's closing re-schedule is not reached.
The `useFrameProcessor` scheduler, by contrast, does wrap its single tick
callback in try/catch: an error thrown there is caught (and logged), the
in-flight flag is reset, and the next frame is still scheduled. -/
theorem camTick_error_aborts_round (ms pre post : List Layer) (l : Layer)
    (hsplit : sortedLayers ms = pre ++ l :: post)
    (hpre : ∀ x ∈ pre, (layerRun x).2 = false)
    (hl : (layerRun l).2 = true)
    (s : SchedulerState) (targetFPS now : ℚ) (hfps : 0 < targetFPS)
    (hproc : s.isProcessing = false)
    (helapsed : 1000 / targetFPS ≤ now - s.lastFrameTime) :
    (camTick ms).events = (camTickGo pre).1 ++ (layerRun l).1 ∧
    (camTick ms).threw = true ∧
    (camTick ms).scheduledNext = false ∧
    (processFrameStep true targetFPS now true s).fired = true ∧
    (processFrameStep true targetFPS now true s).caughtError = true ∧
    (processFrameStep true targetFPS now true s).rescheduled = true ∧
    (processFrameStep true targetFPS now true s).state.isProcessing = false := by
  have hgo : camTickGo (pre ++ l :: post) = ((camTickGo pre).1 ++ (layerRun l).1, true) := by
    rw [camTickGo_append pre (l :: post) hpre]
    have hcons : camTickGo (l :: post) = ((layerRun l).1, true) := by
      simp [camTickGo, hl]
    rw [hcons]
  have hevents : (camTick ms).events = (camTickGo (sortedLayers ms)).1 := rfl
  have hthrew : (camTick ms).threw = (camTickGo (sortedLayers ms)).2 := rfl
  have hsched : (camTick ms).scheduledNext = !(camTickGo (sortedLayers ms)).2 := rfl
  have hskip : skipsFrame (now - s.lastFrameTime) targetFPS = false := by
    simp [skipsFrame, hfps.ne', not_lt.mpr helapsed]
  have hstep : (processFrameStep true targetFPS now true s).fired = true ∧
      (processFrameStep true targetFPS now true s).caughtError = true ∧
      (processFrameStep true targetFPS now true s).rescheduled = true ∧
      (processFrameStep true targetFPS now true s).state.isProcessing = false := by
    simp [processFrameStep, hskip, hproc]
  refine ⟨?_, ?_, ?_, hstep.1, hstep.2.1, hstep.2.2.1, hstep.2.2.2⟩
  · rw [hevents, hsplit, hgo]
  · rw [hthrew, hsplit, hgo]
  · rw [hsched, hsplit, hgo]
    rfl

/-- Witness for the amended C2: layer `A` (order 1) throws in `onFrame`,
layer `B` (order 2) is healthy; the scheduler is invoked at rate 20 with
elapsed exactly one interval and a throwing callback. -/
theorem camTick_error_aborts_round_witness :
    sortedLayers [⟨"A", none, some 1, some true, none, false, false, none, false, false⟩,
        ⟨"B", none, some 2, some false, some false, false, false, none, false, false⟩] =
      [] ++ (⟨"A", none, some 1, some true, none, false, false, none, false, false⟩ : Layer) ::
        [⟨"B", none, some 2, some false, some false, false, false, none, false, false⟩] ∧
    (∀ x ∈ ([] : List Layer), (layerRun x).2 = false) ∧
    (layerRun ⟨"A", none, some 1, some true, none, false, false, none, false, false⟩).2 =
      true ∧
    (0 : ℚ) < 20 ∧
    (⟨0, 0, false⟩ : SchedulerState).isProcessing = false ∧
    (1000 : ℚ) / 20 ≤ 50 - (⟨0, 0, false⟩ : SchedulerState).lastFrameTime ∧
    ((camTick [⟨"A", none, some 1, some true, none, false, false, none, false, false⟩,
        ⟨"B", none, some 2, some false, some false, false, false, none, false, false⟩]).events =
      (camTickGo []).1 ++
        (layerRun ⟨"A", none, some 1, some true, none, false, false, none, false, false⟩).1 ∧
    (camTick [⟨"A", none, some 1, some true, none, false, false, none, false, false⟩,
        ⟨"B", none, some 2, some false, some false, false, false, none, false, false⟩]).threw =
      true ∧
    (camTick [⟨"A", none, some 1, some true, none, false, false, none, false, false⟩,
        ⟨"B", none, some 2, some false, some false, false, false, none, false,
          false⟩]).scheduledNext = false ∧
    (processFrameStep true 20 50 true ⟨0, 0, false⟩).fired = true ∧
    (processFrameStep true 20 50 true ⟨0, 0, false⟩).caughtError = true ∧
    (processFrameStep true 20 50 true ⟨0, 0, false⟩).rescheduled = true ∧
    (processFrameStep true 20 50 true ⟨0, 0, false⟩).state.isProcessing = false) :=
  ⟨by decide, by decide, by decide, by norm_num, rfl, by norm_num,
    camTick_error_aborts_round
      [⟨"A", none, some 1, some true, none, false, false, none, false, false⟩,
       ⟨"B", none, some 2, some false, some false, false, false, none, false, false⟩]
      [] [⟨"B", none, some 2, some false, some false, false, false, none, false, false⟩]
      ⟨"A", none, some 1, some true, none, false, false, none, false, false⟩
      (by decide) (by decide) (by decide) ⟨0, 0, false⟩ 20 50
      (by norm_num) rfl (by norm_num)⟩

/-! ### C1: pointer dispatch ignores regions and hits every interactive layer -/

/-- Evaluation of `handleCanvasClick` at the input that violates C1.  The
claim (and the source's own inline comment, "Check if click is within layer
bounds (simplified for now)") calls for dispatching only to the topmost
interactive layer claiming the point; the code instead invokes the
`onClick` of EVERY interactive layer, in ascending z-order (bottommost
first), performs no hit test against any region or against
`findDetectionAtPoint`, and then also fires the component-level `onClick`.
With interactive layers `A` (order 1) and `B` (order 2) and a click at
canvas point `(30, 30)`, both `A` and `B` are invoked — not only the
topmost `B` — with `A` first. -/
theorem handleCanvasClick_dispatches_every_interactive_layer :
    handleCanvasClick
        (sortedLayers
          [⟨"B", none, some 2, none, none, false, false, some true, true, false⟩,
           ⟨"A", none, some 1, none, none, false, false, some true, true, false⟩])
        30 30 0 0 true =
      [ClickDispatch.layer "A" 30 30, ClickDispatch.layer "B" 30 30,
        ClickDispatch.global 30 30] := by
  norm_num [handleCanvasClick, sortedLayers, List.insertionSort, List.orderedInsert,
    keyLE, sortKey]

/-! ### C8: removal removes exactly the id, but silently; unmount via effect -/

/-- Counterexample to C8.  The claim says unregistering an absent id is a
REPORTED no-op.  `removeLayer` is a bare filter with no reporting call:
removing the absent id `"missing"` from the registry `[x]` leaves the
registry unchanged and reports nothing. -/
theorem removeLayer_absent_silent_cex :
    removeLayer "missing" [⟨"x", none, none, none, none, false, true, none, false, false⟩] =
      ([⟨"x", none, none, none, none, false, true, none, false, false⟩], []) := by
  decide

/-- C8 as amended.  `removeLayer id` removes exactly the layers bearing that
id and keeps every other layer; removing an absent id leaves the registry
unchanged, silently (no report is emitted — `removeLayer` never reports).
The removed layer's unmount callback is not invoked by `removeLayer` itself
but by the cleanup of the `Cam` component's layer-lifecycle effect, which
runs `onUnmount` for every layer of the previous registration (and then
re-mounts the surviving ones). -/
theorem removeLayer_unregister (layerId : String) (layers : List Layer) (l : Layer)
    (hmem : l ∈ layers) :
    (l.id ≠ layerId → l ∈ (removeLayer layerId layers).1) ∧
    (l.id = layerId → l ∉ (removeLayer layerId layers).1) ∧
    (removeLayer layerId layers).2 = [] ∧
    (layerId ∉ layers.map Layer.id → (removeLayer layerId layers).1 = layers) ∧
    (l.onUnmount = true → LifecycleEvent.unmount l.id ∈ unmountAll layers) := by
  refine ⟨?_, ?_, rfl, ?_, ?_⟩
  · intro hne
    exact List.mem_filter.mpr ⟨hmem, by simp [hne]⟩
  · intro heq hmem'
    have := (List.mem_filter.mp hmem').2
    simp [heq] at this
  · intro habs
    have : ∀ x ∈ layers, (x.id != layerId) = true := by
      intro x hx
      simp only [bne_iff_ne, ne_eq]
      exact fun heq => habs (heq ▸ List.mem_map.mpr ⟨x, hx, rfl⟩)
    simp only [removeLayer]
    exact List.filter_eq_self.mpr this
  · intro hun
    exact List.mem_filterMap.mpr ⟨l, hmem, by simp [hun]⟩

/-- Witness for the amended C8: registry `[x, y]`; removing `"x"` keeps `y`,
drops `x`, reports nothing; removing the absent `"z"` leaves the registry
unchanged; `x`'s unmount is invoked by the lifecycle-effect cleanup. -/
theorem removeLayer_unregister_witness :
    (⟨"x", none, none, none, none, false, true, none, false, false⟩ : Layer) ∈
      ([⟨"x", none, none, none, none, false, true, none, false, false⟩,
        ⟨"y", none, none, none, none, false, true, none, false, false⟩] : List Layer) ∧
    (((⟨"x", none, none, none, none, false, true, none, false, false⟩ : Layer).id ≠ "x" →
      (⟨"x", none, none, none, none, false, true, none, false, false⟩ : Layer) ∈
        (removeLayer "x" [⟨"x", none, none, none, none, false, true, none, false, false⟩,
          ⟨"y", none, none, none, none, false, true, none, false, false⟩]).1) ∧
    ((⟨"x", none, none, none, none, false, true, none, false, false⟩ : Layer).id = "x" →
      (⟨"x", none, none, none, none, false, true, none, false, false⟩ : Layer) ∉
        (removeLayer "x" [⟨"x", none, none, none, none, false, true, none, false, false⟩,
          ⟨"y", none, none, none, none, false, true, none, false, false⟩]).1) ∧
    (removeLayer "x" [⟨"x", none, none, none, none, false, true, none, false, false⟩,
      ⟨"y", none, none, none, none, false, true, none, false, false⟩]).2 = [] ∧
    ("x" ∉ ([⟨"x", none, none, none, none, false, true, none, false, false⟩,
        ⟨"y", none, none, none, none, false, true, none, false, false⟩] :
          List Layer).map Layer.id →
      (removeLayer "x" [⟨"x", none, none, none, none, false, true, none, false, false⟩,
        ⟨"y", none, none, none, none, false, true, none, false, false⟩]).1 =
        [⟨"x", none, none, none, none, false, true, none, false, false⟩,
         ⟨"y", none, none, none, none, false, true, none, false, false⟩]) ∧
    ((⟨"x", none, none, none, none, false, true, none, false, false⟩ : Layer).onUnmount = true →
      LifecycleEvent.unmount "x" ∈
        unmountAll [⟨"x", none, none, none, none, false, true, none, false, false⟩,
          ⟨"y", none, none, none, none, false, true, none, false, false⟩])) :=
  ⟨by decide,
    removeLayer_unregister "x"
      [⟨"x", none, none, none, none, false, true, none, false, false⟩,
       ⟨"y", none, none, none, none, false, true, none, false, false⟩]
      ⟨"x", none, none, none, none, false, true, none, false, false⟩ (by decide)⟩
